import Mathlib

/-!
Verification of the tmux-mcp command execution & completion-tracking protocol
(`src/tmux.ts`, `src/index.ts`).

The development shallowly embeds the command-tracking core of `src/tmux.ts`:
the shell dialect adapter (`buildWrappedCommand`, `buildTclshCommand`), the
sequence allocator (`wrappedCommandSequenceCounter`), the marker scanner and
block resolver inside `checkCommandStatus`, the output slicer
(`computeSliceBounds`, `applyOutputSlicing`), the completion waiter
(`waitForCompletion`), the tclsh helper installer (`ensureTclshInitialized`)
and the grep operation (`grepCommandOutput` plus its tool handler in
`src/index.ts`).

Modelling conventions:
* The pane content source (tmux `capture-pane`) is a collaborator; a captured
  snapshot is passed in as the `List String` of its lines (the code splits the
  captured text on newlines before scanning).
* JavaScript `undefined` / the `-1` sentinels of the scanner are modelled with
  `Option`.
* The key injector (`send-keys`) is modelled as an append-only log of
  `SendEvent`s; shell quoting applied just before dispatch is a transport
  detail and is not part of the logged text.
* A dispatch failure (the promisified `exec` rejecting, which makes
  `executeCommand` throw) is modelled by the `dispatchOk` flag: when false the
  final send is not delivered and the call returns no command id, while all
  state mutations made before the throw are kept, exactly as the thrown
  JavaScript exception leaves the module-level state.
-/

/-- Shell dialects, from `supportedShellTypes` in `src/tmux.ts`. -/
inductive ShellType
  | bash
  | zsh
  | fish
  | tclsh
deriving DecidableEq

/-- The string spellings of `supportedShellTypes`. -/
def supportedShellTypes : List String := ["bash", "zsh", "fish", "tclsh"]

/-- `normalizeShellType`: unrecognized dialect strings fall back to bash. -/
def normalizeShellType (type : String) : ShellType :=
  if type = "bash" then ShellType.bash
  else if type = "zsh" then ShellType.zsh
  else if type = "fish" then ShellType.fish
  else if type = "tclsh" then ShellType.tclsh
  else ShellType.bash

/-- `ShellConfigState`: process-wide default dialect plus per-pane overrides
(the `Map` is modelled as an association list, later bindings shadowing via
`lookupOverride` taking the first hit after `setShellConfig` replaces it). -/
structure ShellConfigState where
  defaultType : ShellType
  paneOverrides : List (String × ShellType)
deriving DecidableEq

/-- Lookup in the pane-override map. -/
def lookupOverride (m : List (String × ShellType)) (paneId : String) : Option ShellType :=
  (m.find? (fun kv => kv.1 = paneId)).map (fun kv => kv.2)

/-- `resolveShellType` on a configuration: pane override or default. -/
def resolveShellTypeCfg (cfg : ShellConfigState) (paneId : String) : ShellType :=
  (lookupOverride cfg.paneOverrides paneId).getD cfg.defaultType

/-- `startMarkerBase` from `src/tmux.ts`. -/
def startMarkerBase : String := "TMUX_MCP_START"

/-- `endMarkerBase` from `src/tmux.ts`. -/
def endMarkerBase : String := "TMUX_MCP_DONE"

/-- `DEFAULT_RESULT_LINES`: default number of lines returned when output is
large. -/
def DEFAULT_RESULT_LINES : Nat := 100

/-- Whitespace trimming from both ends of a character list; `String.trim` /
JavaScript `.trim()` on the whitespace that occurs in pane captures
(space, tab, carriage return, newline). -/
def trimChars (l : List Char) : List Char :=
  ((l.dropWhile Char.isWhitespace).reverse.dropWhile Char.isWhitespace).reverse

/-- `.trim()` on strings, via the character list. -/
def strTrim (s : String) : String :=
  ⟨trimChars s.data⟩

/-- Does `hay` start with `needle`? -/
def listStartsWith : List Char → List Char → Bool
  | _, [] => true
  | [], _ :: _ => false
  | a :: as, b :: bs => a = b && listStartsWith as bs

/-- Split a character list on a separator character (`String.prototype.split`
with a one-character separator, as `splitOn "_"` behaves for these inputs). -/
def splitChar (sep : Char) : List Char → List (List Char)
  | [] => [[]]
  | c :: rest =>
    match splitChar sep rest with
    | [] => [[]]
    | g :: gs => if c = sep then [] :: g :: gs else (c :: g) :: gs

/-- A non-empty all-digit character run, the `(\d+)` of the marker regexes. -/
def isDigits (l : List Char) : Bool :=
  decide (l ≠ []) && l.all Char.isDigit

/-- Decimal value of a digit run (`parseInt(s, 10)` on a `\d+` match). -/
def digitsVal (l : List Char) : Nat :=
  l.foldl (fun n c => n * 10 + (c.toNat - 48)) 0

/-- Match of the trimmed line against `^TMUX_MCP_START_(\d+)$`, returning the
sequence number (scanner of `checkCommandStatus`). -/
def parseStartMarker (rawLine : String) : Option Nat :=
  let t := trimChars rawLine.data
  let p := (startMarkerBase ++ "_").data
  if listStartsWith t p then
    let rest := t.drop p.length
    if isDigits rest then some (digitsVal rest) else none
  else none

/-- Match of the trimmed line against `^TMUX_MCP_DONE_(\d+)_([0-9]+)$`,
returning `(exitCode, seq)`.  The two capture groups are separated by a
single underscore and must each be non-empty digit runs, which is exactly
what the anchored regex accepts. -/
def parseEndMarker (rawLine : String) : Option (Nat × Nat) :=
  let t := trimChars rawLine.data
  let p := (endMarkerBase ++ "_").data
  if listStartsWith t p then
    let rest := t.drop p.length
    match splitChar '_' rest with
    | [d1, d2] =>
        if isDigits d1 && isDigits d2 then some (digitsVal d1, digitsVal d2) else none
    | _ => none
  else none

/-- Command lifecycle states. -/
inductive CommandStatus
  | pending
  | completed
  | error
deriving DecidableEq

/-- `CommandExecution` record of `src/tmux.ts` (second interface variant).
`undefined` fields are `none`; `startTime` (a wall-clock `Date` used only by
the age-based reaper) is omitted. `fullResult` is declared in the source but
never written. -/
structure CommandExecution where
  id : String := ""
  paneId : String := ""
  command : String := ""
  status : CommandStatus := CommandStatus.pending
  result : Option String := none
  exitCode : Option Nat := none
  rawMode : Bool := false
  fullResult : Option String := none
  outputLines : Option (List String) := none
  truncated : Option Bool := none
  totalLines : Option Nat := none
  returnedLines : Option Nat := none
  lineStartIndex : Option Nat := none
  lineEndIndex : Option Nat := none
  markerStartLost : Option Bool := none
  sequenceNumber : Option Nat := none
deriving DecidableEq

/-- `OutputSliceOptions`.  The source field `end` is a reserved word here and
is spelled `stop`. -/
structure OutputSliceOptions where
  lines : Option Int := none
  start : Option Int := none
  stop : Option Int := none
deriving DecidableEq

/-- `hasSliceOptions(options?)`. -/
def hasSliceOptions (options : Option OutputSliceOptions) : Bool :=
  match options with
  | none => false
  | some o => o.lines.isSome || o.start.isSome || o.stop.isSome

/-- JavaScript `array.slice(s, e)` for clamped natural indices. -/
def sliceList {α : Type} (xs : List α) (s e : Nat) : List α :=
  (xs.take e).drop s

/-- `lines.join('\n')`. -/
def joinWithNewline : List String → String
  | [] => ""
  | [s] => s
  | s :: rest => s ++ "\n" ++ joinWithNewline rest

/-- `computeSliceBounds(totalLines, options?, defaultLimit?)`, translated
branch for branch; the arithmetic is done on `Int` as in JavaScript and the
final non-negative clamped bounds are returned as naturals. -/
def computeSliceBounds (totalLines : Nat) (options : Option OutputSliceOptions)
    (defaultLimit : Option Nat) : Nat × Nat :=
  let oLines : Option Int := options.bind (fun o => o.lines)
  let oStart : Option Int := options.bind (fun o => o.start)
  let oStop : Option Int := options.bind (fun o => o.stop)
  let bounds : Int × Int :=
    if oStart.isSome || oStop.isSome then
      (match oStart with
       | some v => max 0 v
       | none => 0,
       match oStop with
       | some v => min (totalLines : Int) (v + 1)
       | none => (totalLines : Int))
    else
      match oLines with
      | some n => (max 0 ((totalLines : Int) - n), (totalLines : Int))
      | none =>
        match defaultLimit with
        | some d =>
            if totalLines > d then (max 0 ((totalLines : Int) - (d : Int)), (totalLines : Int))
            else (0, (totalLines : Int))
        | none => (0, (totalLines : Int))
  let sliceStart := bounds.1
  let sliceEnd := if bounds.2 < sliceStart then sliceStart else bounds.2
  (sliceStart.toNat, sliceEnd.toNat)

/-- `applyOutputSlicing(command, options?)`: re-slices the cached output lines
and refreshes the exposure metadata; it touches neither `status`, `exitCode`
nor `outputLines`. -/
def applyOutputSlicing (command : CommandExecution) (options : Option OutputSliceOptions) :
    CommandExecution :=
  match command.outputLines with
  | none => command
  | some ls =>
    let defaultLimit := if hasSliceOptions options then none else some DEFAULT_RESULT_LINES
    let bounds := computeSliceBounds ls.length options defaultLimit
    let finalLines := sliceList ls bounds.1 bounds.2
    { command with
      result := some (strTrim (joinWithNewline finalLines)),
      returnedLines := some finalLines.length,
      lineStartIndex := some bounds.1,
      lineEndIndex := some bounds.2,
      totalLines := some ls.length,
      truncated := some (decide (finalLines.length < ls.length)
                          || command.markerStartLost.getD false) }

/-- Transient `Block` reconstructed on every status check, keyed by pairing
sequence number.  The source initializes `endLine`/`exitCode` to `-1` until an
end marker is seen; those sentinels are `none` here and are always written
together. -/
structure Block where
  startLine : Option Nat := none
  endLine : Option Nat := none
  exitCode : Option Nat := none
  seq : Nat := 0
deriving DecidableEq

/-- State of the linear marker scan: the `blocksBySeq` map and the
`lastEndLine` cursor (source sentinel `-1` is `none`). -/
structure ScanState where
  blocks : Nat → Option Block
  lastEndLine : Option Nat

/-- Initial scan state. -/
def emptyScanState : ScanState :=
  { blocks := fun _ => none, lastEndLine := none }

/-- One iteration of the scanner loop of `checkCommandStatus` at line index
`i`.  A start marker opens or updates the block for its sequence; an end
marker closes it with exit code and line index, inferring a missing start as
one past the previously seen end marker (any sequence), and advances
`lastEndLine`. -/
def scanLine (st : ScanState) (i : Nat) (rawLine : String) : ScanState :=
  match parseStartMarker rawLine with
  | some seq =>
    let existing := (st.blocks seq).getD { seq := seq }
    let b := { existing with startLine := some i }
    { st with blocks := fun s => if s = seq then some b else st.blocks s }
  | none =>
    match parseEndMarker rawLine with
    | some pc =>
      let exitCode := pc.1
      let seq := pc.2
      let existing := (st.blocks seq).getD
        { startLine := none, endLine := some i, exitCode := some exitCode, seq := seq }
      let b1 := { existing with endLine := some i, exitCode := some exitCode }
      let b2 :=
        if b1.startLine.isNone then
          match st.lastEndLine with
          | some l => { b1 with startLine := some (l + 1) }
          | none => b1
        else b1
      { blocks := fun s => if s = seq then some b2 else st.blocks s,
        lastEndLine := some i }
    | none => st

/-- The full marker scan over a snapshot's lines. -/
def scanBlocks (linesArr : List String) : ScanState :=
  linesArr.enum.foldl (fun st p => scanLine st p.1 p.2) emptyScanState

/-- `linesArr.slice(-10).join('\n').trim()` with the empty-tail fallback. -/
def tailPreview (linesArr : List String) : String :=
  let tail := strTrim (joinWithNewline (linesArr.drop (linesArr.length - 10)))
  if tail = "" then "(no recent output)" else tail

/-- Informational result attached to rawMode records by `checkCommandStatus`. -/
def rawModeStatusMessage : String :=
  "Status tracking unavailable for rawMode commands. Use capture-pane to monitor interactive apps instead."

/-- Result of a status check: the (possibly updated) record, and whether the
pane content source was consulted (`capturePaneContent` called). -/
structure CheckResult where
  record : CommandExecution
  captured : Bool
deriving DecidableEq

/-- `checkCommandStatus(commandId, options?)` at the record level.  The
registry lookup is done by the caller; `snapshot` is the line list of the
pane capture that the pending branch performs (`captured` records whether it
was consulted at all).  Terminal records are returned untouched apart from an
optional re-slice; pending non-raw records are resolved against the scanned
marker blocks. -/
def checkCommandStatus (command : CommandExecution) (options : Option OutputSliceOptions)
    (snapshot : List String) : CheckResult :=
  if command.status ≠ CommandStatus.pending then
    if command.outputLines.isSome && (hasSliceOptions options || command.result.isNone) then
      { record := applyOutputSlicing command options, captured := false }
    else
      { record := command, captured := false }
  else
    if command.rawMode then
      { record := { command with result := some rawModeStatusMessage }, captured := true }
    else
      let linesArr := snapshot
      let st := scanBlocks linesArr
      match command.sequenceNumber with
      | none =>
        { record := { command with result := some (tailPreview linesArr) }, captured := true }
      | some seqNum =>
        match st.blocks seqNum with
        | none =>
          { record := { command with result := some (tailPreview linesArr) }, captured := true }
        | some block =>
          match block.endLine, block.exitCode with
          | some endLine, some exitCode =>
            let status :=
              if exitCode = 0 then CommandStatus.completed else CommandStatus.error
            let sliceStartLine :=
              match block.startLine with
              | some s => s + 1
              | none => 0
            let outputLines0 := sliceList linesArr sliceStartLine endLine
            let outputLines :=
              match outputLines0 with
              | l :: rest => if strTrim l = strTrim command.command then rest else outputLines0
              | [] => outputLines0
            let c1 := { command with
                          status := status,
                          exitCode := some exitCode,
                          markerStartLost := some block.startLine.isNone,
                          outputLines := some outputLines }
            { record := applyOutputSlicing c1 options, captured := true }
          | _, _ =>
            { record := { command with result := some (tailPreview linesArr) }, captured := true }

/-- The shell-dialect adapter `buildWrappedCommand(command, shellType, seq)`.
In the source's fish branch the template text between the quoted halves of
the end sentinel is the seven characters `$exitVar` wrapped in braces:
template-literal substitution needs a dollar immediately followed by an open
brace, so the computed `exitVar` is NOT spliced there and the braces carry
the literal text `$exitVar`.  The bash/zsh branch interpolates `exitVar`
(`$?`) directly between the underscores. -/
def buildWrappedCommand (command : String) (shellType : ShellType) (seq : Nat) : String :=
  let exitVar := if shellType = ShellType.fish then "$status" else "$?"
  if shellType = ShellType.fish then
    "echo \"" ++ startMarkerBase ++ "_" ++ toString seq ++ "\"; " ++ command
      ++ "; echo \"" ++ endMarkerBase ++ "_\"\x7b$exitVar\x7d\"_" ++ toString seq ++ "\""
  else
    "echo \"" ++ startMarkerBase ++ "_" ++ toString seq ++ "\"; " ++ command
      ++ "; echo \"" ++ endMarkerBase ++ "_" ++ exitVar ++ "_" ++ toString seq ++ "\""

/-- `buildTclshCommand(command, seq)`: invocation of the installed helper. -/
def buildTclshCommand (command : String) (seq : Nat) : String :=
  "::tmux_mcp::run " ++ toString seq ++ " \x7b" ++ command ++ "\x7d"

/-- `fragments.join(' ')`. -/
def joinWithSpace : List String → String
  | [] => ""
  | [s] => s
  | s :: rest => s ++ " " ++ joinWithSpace rest

/-- The helper `definitionCommand` assembled by `ensureTclshInitialized`
(the source joins these fragments with single spaces; `${seq}` and
`${status}` are literal Tcl variable references, the enclosing JavaScript
strings are plain quoted strings, not templates). -/
def tclshHelperDefinition : String :=
  joinWithSpace [
    "namespace eval ::tmux_mcp \x7b",
    "proc run \x7bseq cmd\x7d \x7b",
    "puts \"" ++ startMarkerBase ++ "_$\x7bseq\x7d\"; flush stdout;",
    "set status [catch \x7buplevel #0 $cmd\x7d result opts];",
    "if \x7b$status == 0\x7d \x7b",
    "if \x7b[info exists result] && $result ne \"\"\x7d \x7b puts $result; flush stdout \x7d",
    "\x7d else \x7b",
    "if \x7b[info exists opts(-errorinfo)]\x7d \x7b puts $opts(-errorinfo); flush stdout \x7d else \x7b puts $result; flush stdout \x7d",
    "\x7d;",
    "puts \"" ++ endMarkerBase ++ "_$\x7bstatus\x7d_$\x7bseq\x7d\"; flush stdout",
    "\x7d",
    "\x7d"
  ]

/-- One key-injector dispatch (`send-keys`): a full text line with Enter, a
named special key, or a single character (the char-by-char `noEnter` path). -/
inductive SendEvent
  | text (paneId content : String)
  | key (paneId keyName : String)
  | char (paneId : String) (c : Char)
deriving DecidableEq

/-- The named keys that `noEnter` mode sends as-is. -/
def specialKeys : List String :=
  ["Up", "Down", "Left", "Right", "Escape", "Tab", "Enter", "Space",
   "BSpace", "Delete", "Home", "End", "PageUp", "PageDown",
   "F1", "F2", "F3", "F4", "F5", "F6", "F7", "F8", "F9", "F10", "F11", "F12"]

/-- The module-level mutable state of `src/tmux.ts` relevant to command
execution: the shell configuration, the per-pane tclsh-helper-installed set,
the wrapped-command sequence counter, the command registry (in insertion
order) and the log of key-injector dispatches. -/
structure TmuxState where
  shellConfig : ShellConfigState
  tclshInitializedPanes : List String
  wrappedCommandSequenceCounter : Nat
  activeCommands : List (String × CommandExecution)
  sentKeys : List SendEvent
deriving DecidableEq

/-- The state of a freshly started process: default dialect bash, no
overrides, no initialized panes, counter zero, empty registry. -/
def freshTmuxState : TmuxState :=
  { shellConfig := { defaultType := ShellType.bash, paneOverrides := [] },
    tclshInitializedPanes := [],
    wrappedCommandSequenceCounter := 0,
    activeCommands := [],
    sentKeys := [] }

/-- `Map.set` on the pane-override association list. -/
def setOverride (m : List (String × ShellType)) (paneId : String) (t : ShellType) :
    List (String × ShellType) :=
  if (m.find? (fun kv => kv.1 = paneId)).isSome then
    m.map (fun kv => if kv.1 = paneId then (paneId, t) else kv)
  else
    m ++ [(paneId, t)]

/-- `setShellConfig(config)`: pane override plus invalidation of the cached
helper installation, or default change clearing the cache when leaving
tclsh. -/
def setShellConfig (st : TmuxState) (type : String) (paneId : Option String) : TmuxState :=
  let normalized := normalizeShellType type
  match paneId with
  | some p =>
    { st with
      shellConfig := { st.shellConfig with
                        paneOverrides := setOverride st.shellConfig.paneOverrides p normalized },
      tclshInitializedPanes := st.tclshInitializedPanes.filter (fun q => q ≠ p) }
  | none =>
    let st1 := { st with shellConfig := { st.shellConfig with defaultType := normalized } }
    if normalized ≠ ShellType.tclsh then { st1 with tclshInitializedPanes := [] } else st1

/-- `resolveShellType(paneId)` against the current state. -/
def resolveShellType (st : TmuxState) (paneId : String) : ShellType :=
  resolveShellTypeCfg st.shellConfig paneId

/-- `ensureTclshInitialized(paneId)`: dispatch the helper definition and mark
the pane, unless already marked. -/
def ensureTclshInitialized (st : TmuxState) (paneId : String) : TmuxState :=
  if paneId ∈ st.tclshInitializedPanes then st
  else
    { st with
      sentKeys := st.sentKeys ++ [SendEvent.text paneId tclshHelperDefinition],
      tclshInitializedPanes := st.tclshInitializedPanes ++ [paneId] }

/-- `executeCommand(paneId, command, rawMode?, noEnter?)` run to completion
(each `await` resolved in order, no interleaved call).  `commandId` stands
for the generated uuid.  `dispatchOk = false` models the final `send-keys`
dispatch throwing: the call then returns no command id while every mutation
made before the throw — including the committed sequence counter and the
registered record — remains, exactly as in the source, where
`wrappedCommandSequenceCounter = sequenceNumber` and `activeCommands.set`
precede the `await executeTmux(send-keys ...)`. -/
def executeCommand (st : TmuxState) (commandId paneId command : String)
    (rawMode noEnter : Bool) (dispatchOk : Bool) : TmuxState × Option String :=
  let shellType := resolveShellType st paneId
  let sequenceNumber : Option Nat :=
    if !rawMode && !noEnter then some (st.wrappedCommandSequenceCounter + 1) else none
  let stepFull : TmuxState × String :=
    if rawMode || noEnter then (st, command)
    else if shellType = ShellType.tclsh then
      (ensureTclshInitialized st paneId, buildTclshCommand command (sequenceNumber.getD 0))
    else
      (st, buildWrappedCommand command shellType (sequenceNumber.getD 0))
  let st1 := stepFull.1
  let fullCommand := stepFull.2
  let st2 :=
    match sequenceNumber with
    | some n => { st1 with wrappedCommandSequenceCounter := n }
    | none => st1
  let record : CommandExecution :=
    { id := commandId, paneId := paneId, command := command,
      status := CommandStatus.pending,
      rawMode := rawMode || noEnter,
      sequenceNumber := sequenceNumber }
  let st3 := { st2 with activeCommands := st2.activeCommands ++ [(commandId, record)] }
  if dispatchOk then
    let st4 :=
      if noEnter then
        if fullCommand ∈ specialKeys then
          { st3 with sentKeys := st3.sentKeys ++ [SendEvent.key paneId fullCommand] }
        else
          { st3 with sentKeys := st3.sentKeys ++
              fullCommand.data.map (fun c => SendEvent.char paneId c) }
      else
        { st3 with sentKeys := st3.sentKeys ++ [SendEvent.text paneId fullCommand] }
    (st4, some commandId)
  else
    (st3, none)

/-- A sequence of wrapped (non-raw) `executeCommand` calls against one pane,
each awaited before the next is issued; the pairs are `(commandId, command)`. -/
def runWrappedCommands (st : TmuxState) (paneId : String) (cmds : List (String × String)) :
    TmuxState :=
  cmds.foldl (fun s c => (executeCommand s c.1 paneId c.2 false false true).1) st

/-- The helper invocations that a run of wrapped tclsh commands dispatches
when the counter starts at `n0`: the i-th command (0-based) is sent as
`::tmux_mcp::run <n0+1+i> {cmd}`. -/
def tclshInvocationEvents (paneId : String) :
    List (String × String) → Nat → List SendEvent
  | [], _ => []
  | c :: rest, n0 =>
    SendEvent.text paneId (buildTclshCommand c.2 (n0 + 1))
      :: tclshInvocationEvents paneId rest (n0 + 1)

/-- The polling loop of `waitForCompletion`.  `check k` is the result of the
`checkCommandStatus` call on attempt `k` (the registry's view at that time);
after the k-th check the loop has slept `k` times, so the elapsed time at the
while-test is `k * intervalMs` (an idealization in which the check itself
takes negligible time against the sleeps).  `fuel` bounds the recursion; the
wrapper supplies enough for any positive interval. -/
def waitLoop (check : Nat → Option CommandExecution) (timeoutMs intervalMs : Nat) :
    Nat → Nat → Option CommandExecution
  | 0, k => check k
  | fuel + 1, k =>
    match check k with
    | none => none
    | some r =>
      if r.status = CommandStatus.pending ∧ k * intervalMs < timeoutMs then
        waitLoop check timeoutMs intervalMs fuel (k + 1)
      else
        some r

/-- `waitForCompletion(commandId, timeoutMs, intervalMs)`: poll until the
record leaves pending or the timeout elapses, and return the current state
whatever it is. -/
def waitForCompletion (check : Nat → Option CommandExecution) (timeoutMs intervalMs : Nat) :
    Option CommandExecution :=
  waitLoop check timeoutMs intervalMs (timeoutMs + 1) 0

/-- `grepCommandOutput(commandId, pattern, flags?)`.  The registry lookup is
passed in as `cmd`; `compile` stands for the ECMAScript `new RegExp(pattern,
flags)` constructor, returning the line test on success and `none` when the
construction throws (malformed pattern) — the source wraps the construction
in try/catch and returns `[]` from the catch. -/
def grepCommandOutput (cmd : Option CommandExecution) (pattern flags : String)
    (compile : String → String → Option (String → Bool)) : List String :=
  match cmd with
  | none => []
  | some c =>
    match c.outputLines with
    | none => []
    | some ls =>
      match compile pattern flags with
      | none => []
      | some test => ls.filter (fun line => test line)

/-- Outcome of the `grep-command-output` tool handler in `src/index.ts`,
abstracting the MCP text envelope: the unknown-id and still-pending branches
set `isError: true`; the success branch reports the total match count and the
(optionally limited) matching lines. -/
inductive GrepToolOutcome
  | notFound (commandId : String)
  | stillPending (commandId : String)
  | matches (totalMatches : Nat) (returned : List String)
deriving DecidableEq

/-- Is the tool response flagged `isError: true`? -/
def GrepToolOutcome.isError : GrepToolOutcome → Bool
  | GrepToolOutcome.notFound _ => true
  | GrepToolOutcome.stillPending _ => true
  | GrepToolOutcome.matches _ _ => false

/-- The `grep-command-output` tool handler: reject unknown ids, reject
pending records, otherwise run `grepCommandOutput` and apply the positive
`limit` if provided. -/
def grepToolHandler (cmd : Option CommandExecution) (commandId pattern flags : String)
    (limit : Option Nat) (compile : String → String → Option (String → Bool)) :
    GrepToolOutcome :=
  match cmd with
  | none => GrepToolOutcome.notFound commandId
  | some c =>
    if c.status = CommandStatus.pending then GrepToolOutcome.stillPending commandId
    else
      let lines := grepCommandOutput (some c) pattern flags compile
      let limited :=
        match limit with
        | some n => lines.take n
        | none => lines
      GrepToolOutcome.matches lines.length limited

/-- Parameters of one in-flight `executeCommand` call for the cooperative
interleaving model of the sequence allocator.  `rawMode` stands for
`rawMode || noEnter` (either flag suppresses sequence assignment). -/
structure AllocTask where
  commandId : String
  paneId : String
  command : String
  rawMode : Bool
deriving DecidableEq

/-- Where an in-flight `executeCommand` call is suspended.  The source reads
the counter when computing `sequenceNumber` and commits it only at
`wrappedCommandSequenceCounter = sequenceNumber`, further down.  For
bash/zsh/fish no `await` lies between the read and the commit, so they form
one atomic segment; for tclsh the `await ensureTclshInitialized(paneId)`
(which always suspends the async function, whether or not the helper must
actually be installed) sits between them, so a tclsh call parks in
`tclshWait` holding its already-computed number. -/
inductive AllocPhase
  | ready
  | tclshWait (seq : Nat)
  | finished
deriving DecidableEq

/-- One scheduler step of an in-flight call: runs the task's next atomic
segment against the shared module state.  Effects per segment mirror
`executeCommand` in source order: sequence read; helper-definition dispatch
for an uninitialized tclsh pane (initiated before the suspension); counter
commit (an assignment of the saved number, as in the source); record
registration; dispatch of the wrapped text. -/
def allocStep (st : TmuxState) (t : AllocTask) (pc : AllocPhase) : TmuxState × AllocPhase :=
  match pc with
  | AllocPhase.finished => (st, AllocPhase.finished)
  | AllocPhase.ready =>
    let shellType := resolveShellType st t.paneId
    if t.rawMode then
      let record : CommandExecution :=
        { id := t.commandId, paneId := t.paneId, command := t.command,
          status := CommandStatus.pending, rawMode := true, sequenceNumber := none }
      ({ st with
          activeCommands := st.activeCommands ++ [(t.commandId, record)],
          sentKeys := st.sentKeys ++ [SendEvent.text t.paneId t.command] },
       AllocPhase.finished)
    else if shellType = ShellType.tclsh then
      let seq := st.wrappedCommandSequenceCounter + 1
      let st1 :=
        if t.paneId ∈ st.tclshInitializedPanes then st
        else { st with sentKeys := st.sentKeys ++ [SendEvent.text t.paneId tclshHelperDefinition] }
      (st1, AllocPhase.tclshWait seq)
    else
      let seq := st.wrappedCommandSequenceCounter + 1
      let record : CommandExecution :=
        { id := t.commandId, paneId := t.paneId, command := t.command,
          status := CommandStatus.pending, rawMode := false, sequenceNumber := some seq }
      ({ st with
          wrappedCommandSequenceCounter := seq,
          activeCommands := st.activeCommands ++ [(t.commandId, record)],
          sentKeys := st.sentKeys ++
            [SendEvent.text t.paneId (buildWrappedCommand t.command shellType seq)] },
       AllocPhase.finished)
  | AllocPhase.tclshWait seq =>
    let record : CommandExecution :=
      { id := t.commandId, paneId := t.paneId, command := t.command,
        status := CommandStatus.pending, rawMode := false, sequenceNumber := some seq }
    ({ st with
        tclshInitializedPanes :=
          if t.paneId ∈ st.tclshInitializedPanes then st.tclshInitializedPanes
          else st.tclshInitializedPanes ++ [t.paneId],
        wrappedCommandSequenceCounter := seq,
        activeCommands := st.activeCommands ++ [(t.commandId, record)],
        sentKeys := st.sentKeys ++ [SendEvent.text t.paneId (buildTclshCommand t.command seq)] },
     AllocPhase.finished)

/-- Run a cooperative schedule: each entry names the task whose next segment
runs (out-of-range entries and already-finished tasks are no-ops). -/
def runSchedule (tasks : List AllocTask) :
    TmuxState → List AllocPhase → List Nat → TmuxState × List AllocPhase
  | st, pcs, [] => (st, pcs)
  | st, pcs, i :: rest =>
    match tasks.get? i, pcs.get? i with
    | some t, some pc =>
      let step := allocStep st t pc
      runSchedule tasks step.1 (pcs.set i step.2) rest
    | _, _ => runSchedule tasks st pcs rest

/-- Initial phase list: every call not yet started. -/
def initPhases (tasks : List AllocTask) : List AllocPhase :=
  tasks.map (fun _ => AllocPhase.ready)

/-- The sequence numbers recorded in the registry, in registration order. -/
def assignedSeqs (st : TmuxState) : List (Option Nat) :=
  st.activeCommands.map (fun p => p.2.sequenceNumber)

/-- Does `hay` contain `needle` as a contiguous segment? -/
def charsContain (needle : List Char) : List Char → Bool
  | [] => decide (needle = [])
  | c :: rest => listStartsWith (c :: rest) needle || charsContain needle rest

/-- Fold a sequence of status queries (`options`, captured snapshot) over a
record, as repeated `checkCommandStatus` calls do. -/
def applyStatusQueries (c : CommandExecution)
    (qs : List (Option OutputSliceOptions × List String)) : CommandExecution :=
  qs.foldl (fun r q => (checkCommandStatus r q.1 q.2).record) c

/-- The record `executeCommand` registers for a rawMode/noEnter execution:
pending, raw, no sequence number. -/
def rawRecord (commandId paneId command : String) : CommandExecution :=
  { id := commandId, paneId := paneId, command := command,
    status := CommandStatus.pending, rawMode := true, sequenceNumber := none }

/-- Claim C1 (code bug evidence).  Pending record with sequence number 2;
the snapshot holds no start marker `TMUX_MCP_START_2`, an end marker
`TMUX_MCP_DONE_0_2` at index 3, and the nearest preceding end marker (for
sequence 1) at index L = 0.  `checkCommandStatus` finalizes the record as
completed with exit code 0; the scanner infers the start line as L+1 = 1 and
the raw output is the snapshot lines strictly between indices 1 and 3
(`["world"]`) — exactly as the claim states — but, contrary to the claim's
final conjunct, `markerStartLost` is computed as `startLine === undefined`
*after* the inference filled `startLine` in, so the record is finalized with
`markerStartLost = false` and (the output being below the default window)
`truncated = false`, not `true`. -/
theorem C1_inferred_start_not_flagged_truncated :
    ((checkCommandStatus
        { id := "c1", paneId := "%0", command := "mycmd",
          status := CommandStatus.pending, sequenceNumber := some 2 }
        none
        ["TMUX_MCP_DONE_3_1", "hello", "world", "TMUX_MCP_DONE_0_2"]).record.status
      = CommandStatus.completed)
    ∧ ((checkCommandStatus
        { id := "c1", paneId := "%0", command := "mycmd",
          status := CommandStatus.pending, sequenceNumber := some 2 }
        none
        ["TMUX_MCP_DONE_3_1", "hello", "world", "TMUX_MCP_DONE_0_2"]).record.exitCode
      = some 0)
    ∧ ((scanBlocks ["TMUX_MCP_DONE_3_1", "hello", "world", "TMUX_MCP_DONE_0_2"]).blocks 2
      = some { startLine := some 1, endLine := some 3, exitCode := some 0, seq := 2 })
    ∧ ((checkCommandStatus
        { id := "c1", paneId := "%0", command := "mycmd",
          status := CommandStatus.pending, sequenceNumber := some 2 }
        none
        ["TMUX_MCP_DONE_3_1", "hello", "world", "TMUX_MCP_DONE_0_2"]).record.outputLines
      = some ["world"])
    ∧ ((checkCommandStatus
        { id := "c1", paneId := "%0", command := "mycmd",
          status := CommandStatus.pending, sequenceNumber := some 2 }
        none
        ["TMUX_MCP_DONE_3_1", "hello", "world", "TMUX_MCP_DONE_0_2"]).record.markerStartLost
      = some false)
    ∧ ((checkCommandStatus
        { id := "c1", paneId := "%0", command := "mycmd",
          status := CommandStatus.pending, sequenceNumber := some 2 }
        none
        ["TMUX_MCP_DONE_3_1", "hello", "world", "TMUX_MCP_DONE_0_2"]).record.truncated
      = some false) :=
  ⟨by decide, by decide, by decide, by decide, by decide, by decide⟩

/-- Claim C7 (code bug evidence).  For the fish dialect the wrapped command's
end sentinel carries the literal seven characters `$exitVar` inside the
braces — template substitution in the source requires a dollar immediately
followed by an open brace, so the computed status expression `$status` is
never spliced in; the emitted text does not contain `{$status}` anywhere,
although the repository's own test expects `TMUX_MCP_DONE_"{$status}"_1`.
The bash and zsh dialects do concatenate the bare status expression `$?`
directly before the `_seq` suffix, as the claim states. -/
theorem C7_fish_sentinel_misses_status_expression :
    (buildWrappedCommand "echo fish-test" ShellType.fish 1
      = "echo \"TMUX_MCP_START_1\"; echo fish-test; echo \"TMUX_MCP_DONE_\"\x7b$exitVar\x7d\"_1\"")
    ∧ (charsContain "\x7b$status\x7d".data
        (buildWrappedCommand "echo fish-test" ShellType.fish 1).data = false)
    ∧ (charsContain "$status".data
        (buildWrappedCommand "echo fish-test" ShellType.fish 1).data = false)
    ∧ (buildWrappedCommand "echo bash-test" ShellType.bash 1
      = "echo \"TMUX_MCP_START_1\"; echo bash-test; echo \"TMUX_MCP_DONE_$?_1\"")
    ∧ (buildWrappedCommand "echo zsh-test" ShellType.zsh 1
      = "echo \"TMUX_MCP_START_1\"; echo zsh-test; echo \"TMUX_MCP_DONE_$?_1\"") :=
  ⟨by decide, by decide, by decide, by decide, by decide⟩

/-- Claim C2, counterexample.  A fresh process dispatches one wrapped (bash)
command whose send-keys dispatch fails: `executeCommand` throws (no command
id is returned), yet the process-wide sequence counter has moved from 0 to 1
— it is not left unchanged, because the source commits
`wrappedCommandSequenceCounter = sequenceNumber` before the `await` of the
send. -/
theorem C2_failed_dispatch_still_advances_counter :
    ((executeCommand freshTmuxState "id-1" "%0" "ls" false false false).2 = none)
    ∧ ((executeCommand freshTmuxState "id-1" "%0" "ls" false false false).1.wrappedCommandSequenceCounter
        = 1)
    ∧ ((executeCommand freshTmuxState "id-1" "%0" "ls" false false false).1.wrappedCommandSequenceCounter
        ≠ freshTmuxState.wrappedCommandSequenceCounter) :=
  ⟨by decide, by decide, by decide⟩

/-- Claim C2, amended.  The counter commit precedes the dispatch: for every
state and every non-raw `executeCommand` call whose send-keys dispatch
fails, the call returns no command id (it throws) and the counter has
nevertheless advanced by exactly one — the failed call's number is consumed
and a gap appears in the successfully dispatched numbers. -/
theorem C2_amended_commit_precedes_dispatch (st : TmuxState)
    (commandId paneId command : String) :
    (executeCommand st commandId paneId command false false false).2 = none
    ∧ (executeCommand st commandId paneId command false false false).1.wrappedCommandSequenceCounter
        = st.wrappedCommandSequenceCounter + 1 := by
  unfold executeCommand ensureTclshInitialized
  simp only [Bool.not_false, Bool.and_self, if_true, Bool.or_self, Bool.false_eq_true, if_false,
    ite_true, ite_false]
  exact ⟨trivial, trivial⟩

/-- Claim C3, counterexample.  Two wrapped (non-raw) `executeCommand` calls
against tclsh panes, issued without awaiting each other: each call reads the
counter and then suspends at `await ensureTclshInitialized(paneId)` before
committing, so under the schedule 0,1,0,1 both calls read counter 0 and both
are assigned sequence number 1 — the assigned numbers are not pairwise
distinct. -/
theorem C3_concurrent_tclsh_calls_collide :
    (assignedSeqs (runSchedule
        [{ commandId := "a", paneId := "%0", command := "expr 1", rawMode := false },
         { commandId := "b", paneId := "%1", command := "expr 2", rawMode := false }]
        { freshTmuxState with
            shellConfig := { defaultType := ShellType.tclsh, paneOverrides := [] } }
        (initPhases
          [{ commandId := "a", paneId := "%0", command := "expr 1", rawMode := false },
           { commandId := "b", paneId := "%1", command := "expr 2", rawMode := false }])
        [0, 1, 0, 1]).1
      = [some 1, some 1])
    ∧ ¬ (assignedSeqs (runSchedule
        [{ commandId := "a", paneId := "%0", command := "expr 1", rawMode := false },
         { commandId := "b", paneId := "%1", command := "expr 2", rawMode := false }]
        { freshTmuxState with
            shellConfig := { defaultType := ShellType.tclsh, paneOverrides := [] } }
        (initPhases
          [{ commandId := "a", paneId := "%0", command := "expr 1", rawMode := false },
           { commandId := "b", paneId := "%1", command := "expr 2", rawMode := false }])
        [0, 1, 0, 1]).1).Nodup :=
  ⟨by decide, by decide⟩

/-- A gap-free run of naturals stays gap-free when its successor is
appended. -/
theorem gapfree_append_next {L : List Nat} {c0 : Nat}
    (h : L = List.range' (c0 + 1) L.length) :
    L ++ [c0 + L.length + 1]
      = List.range' (c0 + 1) (L ++ [c0 + L.length + 1]).length := by
  rw [List.length_append, List.length_singleton]
  conv_rhs => rw [List.range'_1_concat]
  rw [← h]
  congr 1
  simp
  omega

/-- Invariant of the allocator under any cooperative schedule, provided no
wrapped task targets a tclsh pane: the shell configuration is untouched, the
assigned sequence numbers in registration order (ignoring raw tasks' `none`)
stay exactly `c0+1, c0+2, …` up to the current counter, and raw tasks are
never assigned a number. -/
theorem allocSched_preserves (sched : List Nat) :
    ∀ (tasks : List AllocTask) (c0 : Nat) (st : TmuxState) (pcs : List AllocPhase),
    (∀ t ∈ tasks, t.rawMode = false → resolveShellTypeCfg st.shellConfig t.paneId ≠ ShellType.tclsh) →
    (∀ pc ∈ pcs, pc = AllocPhase.ready ∨ pc = AllocPhase.finished) →
    (assignedSeqs st).filterMap id
      = List.range' (c0 + 1) ((assignedSeqs st).filterMap id).length →
    st.wrappedCommandSequenceCounter = c0 + ((assignedSeqs st).filterMap id).length →
    (∀ p ∈ st.activeCommands, p.2.rawMode = true → p.2.sequenceNumber = none) →
    (runSchedule tasks st pcs sched).1.shellConfig = st.shellConfig
    ∧ (assignedSeqs (runSchedule tasks st pcs sched).1).filterMap id
        = List.range' (c0 + 1) ((assignedSeqs (runSchedule tasks st pcs sched).1).filterMap id).length
    ∧ (runSchedule tasks st pcs sched).1.wrappedCommandSequenceCounter
        = c0 + ((assignedSeqs (runSchedule tasks st pcs sched).1).filterMap id).length
    ∧ (∀ p ∈ (runSchedule tasks st pcs sched).1.activeCommands,
         p.2.rawMode = true → p.2.sequenceNumber = none) := by
  induction sched with
  | nil =>
    intro tasks c0 st pcs htasks hpcs hseq hcnt hraw
    exact ⟨rfl, hseq, hcnt, hraw⟩
  | cons i rest ih =>
    intro tasks c0 st pcs htasks hpcs hseq hcnt hraw
    cases htask : tasks.get? i with
    | none =>
      cases hpc : pcs.get? i with
      | none =>
        rw [runSchedule]; simp only [htask, hpc]
        exact ih tasks c0 st pcs htasks hpcs hseq hcnt hraw
      | some pc =>
        rw [runSchedule]; simp only [htask, hpc]
        exact ih tasks c0 st pcs htasks hpcs hseq hcnt hraw
    | some t =>
      cases hpc : pcs.get? i with
      | none =>
        rw [runSchedule]; simp only [htask, hpc]
        exact ih tasks c0 st pcs htasks hpcs hseq hcnt hraw
      | some pc =>
        rw [runSchedule]; simp only [htask, hpc]
        have hpcmem := List.get?_mem hpc
        have hpcsSet : ∀ ph, ∀ pc' ∈ pcs.set i ph,
            pc' = AllocPhase.ready ∨ pc' = AllocPhase.finished ∨ pc' = ph := by
          intro ph pc' hmem
          rcases List.mem_or_eq_of_mem_set hmem with h | h
          · rcases hpcs pc' h with h' | h'
            · exact Or.inl h'
            · exact Or.inr (Or.inl h')
          · exact Or.inr (Or.inr h)
        rcases hpcs pc hpcmem with hready | hfin
        · subst hready
          have htmem := List.get?_mem htask
          by_cases hrawt : t.rawMode
          · -- raw task: registers a record with no sequence number
            have hstep : allocStep st t AllocPhase.ready =
                ({ st with
                    activeCommands := st.activeCommands ++
                      [(t.commandId,
                        { id := t.commandId, paneId := t.paneId, command := t.command,
                          status := CommandStatus.pending, rawMode := true,
                          sequenceNumber := none })],
                    sentKeys := st.sentKeys ++ [SendEvent.text t.paneId t.command] },
                 AllocPhase.finished) := by
              unfold allocStep
              simp [hrawt]
            rw [hstep]
            refine ih tasks c0 _ (pcs.set i AllocPhase.finished) ?_ ?_ ?_ ?_ ?_
            · intro t' ht' hraw'; exact htasks t' ht' hraw'
            · intro pc' h
              rcases hpcsSet AllocPhase.finished pc' h with h | h | h
              · exact Or.inl h
              · exact Or.inr h
              · exact Or.inr h
            · simpa [assignedSeqs] using hseq
            · simpa [assignedSeqs] using hcnt
            · intro p hp hpr
              rcases List.mem_append.mp hp with h | h
              · exact hraw p h hpr
              · simp only [List.mem_singleton] at h
                subst h
                rfl
          · -- wrapped non-tclsh task: atomic read-commit-register-dispatch
            have hrawf : t.rawMode = false := by
              cases hr : t.rawMode
              · rfl
              · exact absurd hr hrawt
            have htcl := htasks t htmem hrawf
            have hstep : allocStep st t AllocPhase.ready =
                ({ st with
                    wrappedCommandSequenceCounter := st.wrappedCommandSequenceCounter + 1,
                    activeCommands := st.activeCommands ++
                      [(t.commandId,
                        { id := t.commandId, paneId := t.paneId, command := t.command,
                          status := CommandStatus.pending, rawMode := false,
                          sequenceNumber := some (st.wrappedCommandSequenceCounter + 1) })],
                    sentKeys := st.sentKeys ++
                      [SendEvent.text t.paneId
                        (buildWrappedCommand t.command (resolveShellType st t.paneId)
                          (st.wrappedCommandSequenceCounter + 1))] },
                 AllocPhase.finished) := by
              unfold allocStep
              simp [hrawf, resolveShellType, htcl]
            rw [hstep]
            refine ih tasks c0 _ (pcs.set i AllocPhase.finished) ?_ ?_ ?_ ?_ ?_
            · intro t' ht' hraw'; exact htasks t' ht' hraw'
            · intro pc' h
              rcases hpcsSet AllocPhase.finished pc' h with h | h | h
              · exact Or.inl h
              · exact Or.inr h
              · exact Or.inr h
            · simp only [assignedSeqs, List.map_append, List.map_cons, List.map_nil,
                List.filterMap_append] at hseq hcnt ⊢
              simp only [List.filterMap_cons, List.filterMap_nil, id] at hcnt ⊢
              rw [hcnt]
              exact gapfree_append_next hseq
            · simp only [assignedSeqs, List.map_append, List.map_cons, List.map_nil,
                List.filterMap_append] at hseq hcnt ⊢
              simp only [List.filterMap_cons, List.filterMap_nil, id] at hcnt ⊢
              simp only [List.length_append, List.length_singleton]
              omega
            · intro p hp hpr
              rcases List.mem_append.mp hp with h | h
              · exact hraw p h hpr
              · simp only [List.mem_singleton] at h
                subst h
                exact absurd hpr (by simp)
        · -- task already finished: the step is a no-op
          subst hfin
          have hstep : allocStep st t AllocPhase.finished = (st, AllocPhase.finished) := rfl
          rw [hstep]
          refine ih tasks c0 st (pcs.set i AllocPhase.finished) htasks ?_ hseq hcnt hraw
          intro pc' h
          rcases hpcsSet AllocPhase.finished pc' h with h | h | h
          · exact Or.inl h
          · exact Or.inr h
          · exact Or.inr h

/-- Claim C3, amended.  For every set of `executeCommand` calls that are
either raw/noEnter or wrapped for a non-tclsh dialect (bash, zsh, fish —
whose counter read and commit form one atomic segment, with no `await`
between them), and for EVERY cooperative interleaving of those calls, the
sequence numbers registered in dispatch order are exactly the gap-free,
strictly increasing run `k, k+1, …` with `k = counter + 1` (so 1 for a fresh
process), and rawMode/noEnter executions are never assigned a number.  (The
restriction to non-tclsh dialects is forced by the counterexample: a tclsh
call suspends between read and commit.) -/
theorem C3_amended_distinct_gapfree (tasks : List AllocTask) (st : TmuxState)
    (sched : List Nat)
    (htasks : ∀ t ∈ tasks, t.rawMode = false →
      resolveShellType st t.paneId ≠ ShellType.tclsh)
    (hempty : st.activeCommands = []) :
    (assignedSeqs (runSchedule tasks st (initPhases tasks) sched).1).filterMap id
      = List.range' (st.wrappedCommandSequenceCounter + 1)
          ((assignedSeqs (runSchedule tasks st (initPhases tasks) sched).1).filterMap id).length
    ∧ (∀ p ∈ (runSchedule tasks st (initPhases tasks) sched).1.activeCommands,
        p.2.rawMode = true → p.2.sequenceNumber = none) := by
  have h := allocSched_preserves sched tasks st.wrappedCommandSequenceCounter st
    (initPhases tasks)
    (fun t ht hr => htasks t ht hr)
    (by intro pc hpc
        simp only [initPhases, List.mem_map] at hpc
        obtain ⟨_, _, h⟩ := hpc
        exact Or.inl h.symm)
    (by simp [assignedSeqs, hempty])
    (by simp [assignedSeqs, hempty])
    (by intro p hp; rw [hempty] at hp; cases hp)
  exact ⟨h.2.1, h.2.2.2⟩

/-- Witness for the amended C3 theorem: two wrapped bash commands on a fresh
process, dispatched under the interleaving 0, 1, receive exactly the numbers
1, 2. -/
theorem C3_amended_distinct_gapfree_witness :
    (assignedSeqs (runSchedule
        [{ commandId := "a", paneId := "%0", command := "ls", rawMode := false },
         { commandId := "b", paneId := "%0", command := "pwd", rawMode := false }]
        freshTmuxState
        (initPhases
          [{ commandId := "a", paneId := "%0", command := "ls", rawMode := false },
           { commandId := "b", paneId := "%0", command := "pwd", rawMode := false }])
        [0, 1]).1).filterMap id
      = List.range' 1
          ((assignedSeqs (runSchedule
            [{ commandId := "a", paneId := "%0", command := "ls", rawMode := false },
             { commandId := "b", paneId := "%0", command := "pwd", rawMode := false }]
            freshTmuxState
            (initPhases
              [{ commandId := "a", paneId := "%0", command := "ls", rawMode := false },
               { commandId := "b", paneId := "%0", command := "pwd", rawMode := false }])
            [0, 1]).1).filterMap id).length :=
  (C3_amended_distinct_gapfree
    [{ commandId := "a", paneId := "%0", command := "ls", rawMode := false },
     { commandId := "b", paneId := "%0", command := "pwd", rawMode := false }]
    freshTmuxState [0, 1] (by decide) rfl).1

/-- Re-slicing touches only the exposure fields: `status`, `exitCode` and the
cached `outputLines` survive any `applyOutputSlicing` call. -/
theorem applyOutputSlicing_preserves (c : CommandExecution)
    (options : Option OutputSliceOptions) :
    (applyOutputSlicing c options).status = c.status
    ∧ (applyOutputSlicing c options).exitCode = c.exitCode
    ∧ (applyOutputSlicing c options).outputLines = c.outputLines := by
  unfold applyOutputSlicing
  split <;> exact ⟨rfl, rfl, rfl⟩

/-- Claim C4.  Once a record is terminal (status differs from pending),
every `checkCommandStatus` call is an idempotent read: it consults no pane
capture, and while it may re-slice the cached output lines it never changes
`status`, `exitCode`, or the cached output line sequence. -/
theorem C4_terminal_checks_idempotent (c : CommandExecution)
    (options : Option OutputSliceOptions) (snapshot : List String)
    (h : c.status ≠ CommandStatus.pending) :
    (checkCommandStatus c options snapshot).captured = false
    ∧ (checkCommandStatus c options snapshot).record.status = c.status
    ∧ (checkCommandStatus c options snapshot).record.exitCode = c.exitCode
    ∧ (checkCommandStatus c options snapshot).record.outputLines = c.outputLines := by
  unfold checkCommandStatus
  rw [if_pos h]
  by_cases hc : (c.outputLines.isSome && (hasSliceOptions options || c.result.isNone)) = true
  · rw [if_pos hc]
    exact ⟨rfl, (applyOutputSlicing_preserves c options).1,
      (applyOutputSlicing_preserves c options).2.1,
      (applyOutputSlicing_preserves c options).2.2⟩
  · rw [if_neg hc]
    exact ⟨rfl, rfl, rfl, rfl⟩

/-- Witness for C4: a completed record with two cached lines, re-queried
with an explicit slice, keeps its state, exit code and cached lines, and no
capture happens. -/
theorem C4_terminal_checks_idempotent_witness :
    (checkCommandStatus
        { id := "w4", paneId := "%0", command := "ls",
          status := CommandStatus.completed, exitCode := some 0,
          outputLines := some ["a", "b"], result := some "a\nb" }
        (some { lines := some 1 }) ["garbage"]).captured = false
    ∧ (checkCommandStatus
        { id := "w4", paneId := "%0", command := "ls",
          status := CommandStatus.completed, exitCode := some 0,
          outputLines := some ["a", "b"], result := some "a\nb" }
        (some { lines := some 1 }) ["garbage"]).record.status = CommandStatus.completed
    ∧ (checkCommandStatus
        { id := "w4", paneId := "%0", command := "ls",
          status := CommandStatus.completed, exitCode := some 0,
          outputLines := some ["a", "b"], result := some "a\nb" }
        (some { lines := some 1 }) ["garbage"]).record.exitCode = some 0
    ∧ (checkCommandStatus
        { id := "w4", paneId := "%0", command := "ls",
          status := CommandStatus.completed, exitCode := some 0,
          outputLines := some ["a", "b"], result := some "a\nb" }
        (some { lines := some 1 }) ["garbage"]).record.outputLines = some ["a", "b"] :=
  C4_terminal_checks_idempotent
    { id := "w4", paneId := "%0", command := "ls",
      status := CommandStatus.completed, exitCode := some 0,
      outputLines := some ["a", "b"], result := some "a\nb" }
    (some { lines := some 1 }) ["garbage"] (by decide)

/-- Claim C5, counterexample.  A completed record with two cached output
lines (well under the 100-line default window) whose start marker was lost:
a status query with no slicing options returns the full output, but the
`truncated` flag is `true` (the slicer ORs in `markerStartLost`), refuting
the claim's "total ≤ 100 lines ⇒ returned untruncated". -/
theorem C5_small_output_still_truncated_when_marker_lost :
    ({ id := "c5", paneId := "%0", command := "x",
       status := CommandStatus.completed, exitCode := some 0,
       outputLines := some ["a", "b"], markerStartLost := some true,
       result := none : CommandExecution }.status = CommandStatus.completed)
    ∧ ((checkCommandStatus
        { id := "c5", paneId := "%0", command := "x",
          status := CommandStatus.completed, exitCode := some 0,
          outputLines := some ["a", "b"], markerStartLost := some true,
          result := none } none []).record.result = some "a\nb")
    ∧ ((checkCommandStatus
        { id := "c5", paneId := "%0", command := "x",
          status := CommandStatus.completed, exitCode := some 0,
          outputLines := some ["a", "b"], markerStartLost := some true,
          result := none } none []).record.returnedLines = some 2)
    ∧ ((checkCommandStatus
        { id := "c5", paneId := "%0", command := "x",
          status := CommandStatus.completed, exitCode := some 0,
          outputLines := some ["a", "b"], markerStartLost := some true,
          result := none } none []).record.truncated = some true) :=
  ⟨by decide, by decide, by decide, by decide⟩

/-- With no slicing options the slicer keeps everything when the total does
not exceed the default window. -/
theorem computeSliceBounds_none_small (n : Nat) (h : ¬ n > DEFAULT_RESULT_LINES) :
    computeSliceBounds n none (some DEFAULT_RESULT_LINES) = (0, n) := by
  unfold computeSliceBounds
  dsimp only
  rw [if_neg h]
  have h0 : ¬ ((n : Int) < 0) := by omega
  simp [if_neg h0]

/-- A no-options slice of a 150-line output: the default trailing window of
100 lines, starting at original index 50, flagged truncated. -/
theorem applyOutputSlicing_noOptions_150 (c : CommandExecution) (ls : List String)
    (hc : c.outputLines = some ls) (h150 : ls.length = 150) :
    (applyOutputSlicing c none).returnedLines = some 100
    ∧ (applyOutputSlicing c none).lineStartIndex = some 50
    ∧ (applyOutputSlicing c none).lineEndIndex = some 150
    ∧ (applyOutputSlicing c none).truncated = some true
    ∧ (applyOutputSlicing c none).result
        = some (strTrim (joinWithNewline (ls.drop 50))) := by
  unfold applyOutputSlicing
  rw [hc]
  dsimp only
  rw [h150]
  have hb : computeSliceBounds 150 none
      (if hasSliceOptions none = true then none else some DEFAULT_RESULT_LINES) = (50, 150) := by
    decide
  rw [hb]
  dsimp only
  have hfl : sliceList ls 50 150 = ls.drop 50 := by
    unfold sliceList
    rw [← h150, List.take_length]
  have hlen : (ls.drop 50).length = 100 := by
    rw [List.length_drop, h150]
  rw [hfl, hlen]
  exact ⟨rfl, rfl, rfl, rfl, rfl⟩

/-- A no-options slice of an output of at most 100 lines whose start marker
was observed: everything is returned and `truncated` is `false`. -/
theorem applyOutputSlicing_noOptions_small (c : CommandExecution) (ls : List String)
    (hc : c.outputLines = some ls) (hsmall : ls.length ≤ 100)
    (hlost : c.markerStartLost.getD false = false) :
    (applyOutputSlicing c none).returnedLines = some ls.length
    ∧ (applyOutputSlicing c none).lineStartIndex = some 0
    ∧ (applyOutputSlicing c none).lineEndIndex = some ls.length
    ∧ (applyOutputSlicing c none).truncated = some false
    ∧ (applyOutputSlicing c none).result = some (strTrim (joinWithNewline ls)) := by
  unfold applyOutputSlicing
  rw [hc]
  dsimp only
  have hif : (if hasSliceOptions none = true then none else some DEFAULT_RESULT_LINES)
      = some DEFAULT_RESULT_LINES := rfl
  rw [hif, computeSliceBounds_none_small ls.length
    (by simp only [DEFAULT_RESULT_LINES]; omega)]
  dsimp only
  have hfl : sliceList ls 0 ls.length = ls := by
    unfold sliceList
    rw [List.take_length, List.drop_zero]
  rw [hfl, hlost]
  simp

/-- Claim C5, amended.  For a completed record's cached output and a status
query with no slicing options: 150 cached lines are exposed as exactly the
last 100 (the default trailing window), `truncated` is true and the first
exposed line is the one at original index 50; with total ≤ 100 lines the
full output is returned, and it is untruncated provided the record's start
marker was not lost (`markerStartLost` unset or false) — a marker-lost
record keeps `truncated = true`, as the counterexample forces. -/
theorem C5_amended_default_window (c : CommandExecution) (ls : List String)
    (hc : c.outputLines = some ls) :
    (ls.length = 150 →
      (applyOutputSlicing c none).returnedLines = some 100
      ∧ (applyOutputSlicing c none).lineStartIndex = some 50
      ∧ (applyOutputSlicing c none).lineEndIndex = some 150
      ∧ (applyOutputSlicing c none).truncated = some true
      ∧ (applyOutputSlicing c none).result
          = some (strTrim (joinWithNewline (ls.drop 50))))
    ∧ (ls.length ≤ 100 → c.markerStartLost.getD false = false →
      (applyOutputSlicing c none).returnedLines = some ls.length
      ∧ (applyOutputSlicing c none).lineStartIndex = some 0
      ∧ (applyOutputSlicing c none).lineEndIndex = some ls.length
      ∧ (applyOutputSlicing c none).truncated = some false
      ∧ (applyOutputSlicing c none).result = some (strTrim (joinWithNewline ls))) :=
  ⟨fun h150 => applyOutputSlicing_noOptions_150 c ls hc h150,
   fun hsmall hlost => applyOutputSlicing_noOptions_small c ls hc hsmall hlost⟩

/-- Witness for the amended C5 theorem: a 150-line record gets the trailing
100-line window starting at index 50 with `truncated` true, and a 1-line
record with its marker intact is returned whole and untruncated. -/
theorem C5_amended_default_window_witness :
    ((applyOutputSlicing
        { id := "w5a", command := "big", status := CommandStatus.completed,
          outputLines := some (List.replicate 150 "y") } none).lineStartIndex = some 50
    ∧ (applyOutputSlicing
        { id := "w5a", command := "big", status := CommandStatus.completed,
          outputLines := some (List.replicate 150 "y") } none).truncated = some true)
    ∧ ((applyOutputSlicing
        { id := "w5b", command := "small", status := CommandStatus.completed,
          outputLines := some ["a"] } none).returnedLines = some 1
    ∧ (applyOutputSlicing
        { id := "w5b", command := "small", status := CommandStatus.completed,
          outputLines := some ["a"] } none).truncated = some false) :=
  ⟨⟨((C5_amended_default_window
        { id := "w5a", command := "big", status := CommandStatus.completed,
          outputLines := some (List.replicate 150 "y") }
        (List.replicate 150 "y") rfl).1 (by simp)).2.1,
    ((C5_amended_default_window
        { id := "w5a", command := "big", status := CommandStatus.completed,
          outputLines := some (List.replicate 150 "y") }
        (List.replicate 150 "y") rfl).1 (by simp)).2.2.2.1⟩,
   ⟨((C5_amended_default_window
        { id := "w5b", command := "small", status := CommandStatus.completed,
          outputLines := some ["a"] }
        ["a"] rfl).2 (by decide) rfl).1,
    ((C5_amended_default_window
        { id := "w5b", command := "small", status := CommandStatus.completed,
          outputLines := some ["a"] }
        ["a"] rfl).2 (by decide) rfl).2.2.2.1⟩⟩

/-- Claim C6.  A malformed regular expression (the `RegExp` construction
throws, i.e. `compile` yields `none`) makes `grepCommandOutput` return the
empty match list instead of propagating the parser fault; and a grep tool
request against a still-pending record is answered with an explicit error
response (`isError: true`, "Command still pending"), never a silent empty
result. -/
theorem C6_grep_malformed_regex_and_pending (c : CommandExecution)
    (commandId pattern flags : String) (limit : Option Nat)
    (compile : String → String → Option (String → Bool)) :
    (compile pattern flags = none →
      grepCommandOutput (some c) pattern flags compile = [])
    ∧ (c.status = CommandStatus.pending →
      grepToolHandler (some c) commandId pattern flags limit compile
        = GrepToolOutcome.stillPending commandId
      ∧ (grepToolHandler (some c) commandId pattern flags limit compile).isError = true) := by
  constructor
  · intro hbad
    unfold grepCommandOutput
    dsimp only
    cases hc : c.outputLines with
    | none => rfl
    | some ls =>
      dsimp only
      rw [hbad]
  · intro hpending
    unfold grepToolHandler
    dsimp only
    rw [if_pos hpending]
    exact ⟨rfl, rfl⟩

/-- Witness for C6: a pending record and an unparsable pattern.  The grep
function yields no matches and the tool handler rejects the request as an
error. -/
theorem C6_grep_malformed_regex_and_pending_witness :
    grepCommandOutput
      (some { id := "w6", command := "ls", status := CommandStatus.pending,
              outputLines := some ["x"] })
      "(" "" (fun _ _ => none) = []
    ∧ grepToolHandler
        (some { id := "w6", command := "ls", status := CommandStatus.pending,
                outputLines := some ["x"] })
        "w6" "(" "" none (fun _ _ => none)
      = GrepToolOutcome.stillPending "w6" :=
  ⟨(C6_grep_malformed_regex_and_pending
      { id := "w6", command := "ls", status := CommandStatus.pending,
        outputLines := some ["x"] }
      "w6" "(" "" none (fun _ _ => none)).1 rfl,
   ((C6_grep_malformed_regex_and_pending
      { id := "w6", command := "ls", status := CommandStatus.pending,
        outputLines := some ["x"] }
      "w6" "(" "" none (fun _ _ => none)).2 rfl).1⟩

/-- Every exit of the polling loop hands back one of the refresh results
verbatim: whatever state the record has at that attempt. -/
theorem waitLoop_is_some_check (check : Nat → Option CommandExecution)
    (timeoutMs intervalMs : Nat) :
    ∀ fuel k, ∃ j, waitLoop check timeoutMs intervalMs fuel k = check j := by
  intro fuel
  induction fuel with
  | zero => intro k; exact ⟨k, rfl⟩
  | succ f ih =>
    intro k
    rw [waitLoop]
    cases hk : check k with
    | none => exact ⟨k, hk.symm⟩
    | some r =>
      dsimp only
      by_cases hcond : r.status = CommandStatus.pending ∧ k * intervalMs < timeoutMs
      · rw [if_pos hcond]
        exact ih (k + 1)
      · rw [if_neg hcond]
        exact ⟨k, hk.symm⟩

/-- Claim C8.  `waitForCompletion` polls the status refresh, sleeping the
interval between attempts, until the record leaves pending or the timeout
elapses, and then returns the record in whatever state it currently has: the
result is always some refresh's verbatim answer; if every refresh still
reports a pending record, the returned value is that pending record — a
normal return, not a failure; and a record already terminal on the first
refresh is returned immediately. -/
theorem C8_wait_returns_current_state (check : Nat → Option CommandExecution)
    (timeoutMs intervalMs : Nat) :
    (∃ j, waitForCompletion check timeoutMs intervalMs = check j)
    ∧ ((∀ j, ∃ r, check j = some r ∧ r.status = CommandStatus.pending) →
        ∃ r, waitForCompletion check timeoutMs intervalMs = some r
          ∧ r.status = CommandStatus.pending)
    ∧ (∀ r, check 0 = some r → r.status ≠ CommandStatus.pending →
        waitForCompletion check timeoutMs intervalMs = some r) := by
  refine ⟨waitLoop_is_some_check check timeoutMs intervalMs (timeoutMs + 1) 0, ?_, ?_⟩
  · intro hall
    obtain ⟨j, hj⟩ := waitLoop_is_some_check check timeoutMs intervalMs (timeoutMs + 1) 0
    obtain ⟨r, hr, hrp⟩ := hall j
    exact ⟨r, by rw [waitForCompletion] at *; rw [hj, hr], hrp⟩
  · intro r h0 hterm
    unfold waitForCompletion
    rw [waitLoop, h0]
    dsimp only
    rw [if_neg (by intro hcontra; exact hterm hcontra.1)]

/-- Witness for C8: against a refresh that forever reports the same pending
record, a 1000 ms wait with 100 ms interval returns that pending record
normally. -/
theorem C8_wait_returns_current_state_witness :
    ∃ r, waitForCompletion
        (fun _ => some { id := "w8", command := "sleep 99", status := CommandStatus.pending })
        1000 100
      = some r ∧ r.status = CommandStatus.pending :=
  (C8_wait_returns_current_state
    (fun _ => some { id := "w8", command := "sleep 99", status := CommandStatus.pending })
    1000 100).2.1
    (fun _ => ⟨{ id := "w8", command := "sleep 99", status := CommandStatus.pending },
      rfl, rfl⟩)

/-- A status check on a pending rawMode record only attaches the
informational message; no other field changes. -/
theorem checkCommandStatus_raw_pending (c : CommandExecution)
    (options : Option OutputSliceOptions) (snapshot : List String)
    (hraw : c.rawMode = true) (hp : c.status = CommandStatus.pending) :
    (checkCommandStatus c options snapshot).record
      = { c with result := some rawModeStatusMessage } := by
  unfold checkCommandStatus
  rw [if_neg (by rw [hp]; exact fun h => h rfl)]
  rw [if_pos hraw]

/-- Claim C10.  A record created with rawMode or noEnter is registered
pending, flagged raw, with no exit code and no sequence number; every
`checkCommandStatus` call on it (any options, any snapshot, any number of
repetitions) leaves the status `pending` and the exit code unset, attaching
only the informational rawMode message as the result — such a record can
never reach `completed` or `error` through status queries. -/
theorem C10_raw_records_stay_pending (st : TmuxState)
    (commandId paneId command : String) (rawMode noEnter dispatchOk : Bool)
    (h : (rawMode || noEnter) = true) :
    (executeCommand st commandId paneId command rawMode noEnter dispatchOk).1.activeCommands
      = st.activeCommands ++ [(commandId, rawRecord commandId paneId command)]
    ∧ (rawRecord commandId paneId command).status = CommandStatus.pending
    ∧ (rawRecord commandId paneId command).exitCode = none
    ∧ (rawRecord commandId paneId command).sequenceNumber = none
    ∧ (∀ qs, (applyStatusQueries (rawRecord commandId paneId command) qs).status
          = CommandStatus.pending
        ∧ (applyStatusQueries (rawRecord commandId paneId command) qs).exitCode = none)
    ∧ (∀ options snapshot,
        (checkCommandStatus (rawRecord commandId paneId command) options snapshot).record.result
          = some rawModeStatusMessage) := by
  have hfold : ∀ qs (c : CommandExecution), c.rawMode = true →
      c.status = CommandStatus.pending → c.exitCode = none →
      (applyStatusQueries c qs).status = CommandStatus.pending
      ∧ (applyStatusQueries c qs).exitCode = none := by
    intro qs
    induction qs with
    | nil => intro c hr hp he; exact ⟨hp, he⟩
    | cons q rest ih =>
      intro c hr hp he
      have hq := checkCommandStatus_raw_pending c q.1 q.2 hr hp
      have hunf : applyStatusQueries c (q :: rest)
          = applyStatusQueries { c with result := some rawModeStatusMessage } rest := by
        unfold applyStatusQueries
        simp only [List.foldl_cons]
        rw [hq]
      rw [hunf]
      exact ih _ hr hp he
  refine ⟨?_, rfl, rfl, rfl, ?_, ?_⟩
  · unfold executeCommand
    have hseq : (!rawMode && !noEnter) = false := by
      rw [← Bool.not_or, h]
      rfl
    simp only [hseq, h, Bool.false_eq_true, if_false, if_true, ite_true, ite_false, rawRecord]
    split <;> first
      | rfl
      | (split <;> first
          | rfl
          | (split <;> rfl))
  · intro qs
    exact hfold qs _ rfl rfl rfl
  · intro options snapshot
    rw [checkCommandStatus_raw_pending _ options snapshot rfl rfl]

/-- Witness for C10: a noEnter execution on a fresh process; two successive
status checks still leave the registered record pending with no exit code. -/
theorem C10_raw_records_stay_pending_witness :
    (executeCommand freshTmuxState "w10" "%1" "q" false true true).1.activeCommands
      = freshTmuxState.activeCommands ++ [("w10", rawRecord "w10" "%1" "q")]
    ∧ (applyStatusQueries (rawRecord "w10" "%1" "q")
        [(none, ["a", "b"]), (some { lines := some 5 }, ["c"])]).status
      = CommandStatus.pending
    ∧ (applyStatusQueries (rawRecord "w10" "%1" "q")
        [(none, ["a", "b"]), (some { lines := some 5 }, ["c"])]).exitCode = none :=
  ⟨(C10_raw_records_stay_pending freshTmuxState "w10" "%1" "q" false true true rfl).1,
   ((C10_raw_records_stay_pending freshTmuxState "w10" "%1" "q" false true true rfl).2.2.2.2.1
      [(none, ["a", "b"]), (some { lines := some 5 }, ["c"])]).1,
   ((C10_raw_records_stay_pending freshTmuxState "w10" "%1" "q" false true true rfl).2.2.2.2.1
      [(none, ["a", "b"]), (some { lines := some 5 }, ["c"])]).2⟩

/-- A wrapped `executeCommand` on an uninitialized tclsh pane: installs the
helper (one dispatch), marks the pane, commits the next sequence number,
registers the record, and dispatches the helper invocation. -/
theorem executeCommand_tclsh_uninit (st : TmuxState) (commandId paneId command : String)
    (hshell : resolveShellType st paneId = ShellType.tclsh)
    (hnew : paneId ∉ st.tclshInitializedPanes) :
    (executeCommand st commandId paneId command false false true).1
      = { st with
          tclshInitializedPanes := st.tclshInitializedPanes ++ [paneId],
          wrappedCommandSequenceCounter := st.wrappedCommandSequenceCounter + 1,
          activeCommands := st.activeCommands ++
            [(commandId,
              { id := commandId, paneId := paneId, command := command,
                status := CommandStatus.pending, rawMode := false,
                sequenceNumber := some (st.wrappedCommandSequenceCounter + 1) })],
          sentKeys := st.sentKeys ++
            [SendEvent.text paneId tclshHelperDefinition,
             SendEvent.text paneId
               (buildTclshCommand command (st.wrappedCommandSequenceCounter + 1))] } := by
  unfold executeCommand ensureTclshInitialized
  simp only [Bool.not_false, Bool.and_self, if_true, Bool.or_self, Bool.false_eq_true, if_false,
    ite_true, ite_false, hshell, if_pos, if_neg hnew]
  simp [List.append_assoc]

/-- A wrapped `executeCommand` on an already-initialized tclsh pane: no
helper reinstallation, only the helper invocation is dispatched. -/
theorem executeCommand_tclsh_init (st : TmuxState) (commandId paneId command : String)
    (hshell : resolveShellType st paneId = ShellType.tclsh)
    (hin : paneId ∈ st.tclshInitializedPanes) :
    (executeCommand st commandId paneId command false false true).1
      = { st with
          wrappedCommandSequenceCounter := st.wrappedCommandSequenceCounter + 1,
          activeCommands := st.activeCommands ++
            [(commandId,
              { id := commandId, paneId := paneId, command := command,
                status := CommandStatus.pending, rawMode := false,
                sequenceNumber := some (st.wrappedCommandSequenceCounter + 1) })],
          sentKeys := st.sentKeys ++
            [SendEvent.text paneId
               (buildTclshCommand command (st.wrappedCommandSequenceCounter + 1))] } := by
  unfold executeCommand ensureTclshInitialized
  simp only [Bool.not_false, Bool.and_self, if_true, Bool.or_self, Bool.false_eq_true, if_false,
    ite_true, ite_false, hshell, if_pos hin]
  simp

/-- A helper invocation always begins with a colon, so it can never equal
the helper definition text (which begins with `namespace`). -/
theorem buildTclshCommand_head (c : String) (s : Nat) :
    (buildTclshCommand c s).data.head? = some ':' := by
  unfold buildTclshCommand
  simp [String.data_append]

/-- The helper invocation text differs from the helper definition text. -/
theorem buildTclshCommand_ne_helper (c : String) (s : Nat) :
    buildTclshCommand c s ≠ tclshHelperDefinition := by
  intro h
  have h1 := buildTclshCommand_head c s
  rw [h] at h1
  have h2 : tclshHelperDefinition.data.head? = some 'n' := by decide
  rw [h2] at h1
  cases h1

/-- No helper-definition dispatch hides among the helper invocations. -/
theorem helper_not_in_invocations (paneId : String) :
    ∀ (cmds : List (String × String)) (n : Nat),
      SendEvent.text paneId tclshHelperDefinition ∉ tclshInvocationEvents paneId cmds n := by
  intro cmds
  induction cmds with
  | nil => intro n h; cases h
  | cons c rest ih =>
    intro n h
    rcases List.mem_cons.mp h with h | h
    · have := (SendEvent.text.injEq _ _ _ _).mp h
      exact buildTclshCommand_ne_helper c.2 (n + 1) this.2.symm
    · exact ih (n + 1) h

/-- A run of wrapped commands against an already-initialized tclsh pane only
dispatches helper invocations, one per command. -/
theorem runWrapped_initialized (paneId : String) :
    ∀ (cmds : List (String × String)) (st : TmuxState),
      resolveShellType st paneId = ShellType.tclsh →
      paneId ∈ st.tclshInitializedPanes →
      (runWrappedCommands st paneId cmds).sentKeys
        = st.sentKeys ++ tclshInvocationEvents paneId cmds st.wrappedCommandSequenceCounter := by
  intro cmds
  induction cmds with
  | nil =>
    intro st h1 h2
    simp [runWrappedCommands, tclshInvocationEvents]
  | cons c rest ih =>
    intro st h1 h2
    have hstep := executeCommand_tclsh_init st c.1 paneId c.2 h1 h2
    unfold runWrappedCommands
    simp only [List.foldl_cons]
    rw [hstep]
    have := ih ({ st with
          wrappedCommandSequenceCounter := st.wrappedCommandSequenceCounter + 1,
          activeCommands := st.activeCommands ++
            [(c.1,
              { id := c.1, paneId := paneId, command := c.2,
                status := CommandStatus.pending, rawMode := false,
                sequenceNumber := some (st.wrappedCommandSequenceCounter + 1) })],
          sentKeys := st.sentKeys ++
            [SendEvent.text paneId
               (buildTclshCommand c.2 (st.wrappedCommandSequenceCounter + 1))] }) h1 h2
    unfold runWrappedCommands at this
    rw [this]
    simp [tclshInvocationEvents]

/-- Claim C9.  Against a pane whose active dialect is tclsh and whose helper
is not yet installed, any sequence of two or more wrapped `executeCommand`
calls (no intervening shell-configuration change) dispatches the
helper-definition text exactly once, during the first call, immediately
followed by that call's helper invocation; every later call dispatches only
the direct helper invocation `::tmux_mcp::run <seq> {cmd}`. -/
theorem C9_helper_installed_once (st : TmuxState) (paneId : String)
    (cmds : List (String × String))
    (hshell : resolveShellType st paneId = ShellType.tclsh)
    (hnew : paneId ∉ st.tclshInitializedPanes)
    (hlen : 2 ≤ cmds.length) :
    (runWrappedCommands st paneId cmds).sentKeys
      = st.sentKeys ++ SendEvent.text paneId tclshHelperDefinition
          :: tclshInvocationEvents paneId cmds st.wrappedCommandSequenceCounter
    ∧ ((runWrappedCommands st paneId cmds).sentKeys.drop st.sentKeys.length).count
        (SendEvent.text paneId tclshHelperDefinition) = 1 := by
  have hmain : (runWrappedCommands st paneId cmds).sentKeys
      = st.sentKeys ++ SendEvent.text paneId tclshHelperDefinition
          :: tclshInvocationEvents paneId cmds st.wrappedCommandSequenceCounter := by
    cases cmds with
    | nil => cases hlen
    | cons c rest =>
      have hstep := executeCommand_tclsh_uninit st c.1 paneId c.2 hshell hnew
      unfold runWrappedCommands
      simp only [List.foldl_cons]
      rw [hstep]
      have := runWrapped_initialized paneId rest
        ({ st with
            tclshInitializedPanes := st.tclshInitializedPanes ++ [paneId],
            wrappedCommandSequenceCounter := st.wrappedCommandSequenceCounter + 1,
            activeCommands := st.activeCommands ++
              [(c.1,
                { id := c.1, paneId := paneId, command := c.2,
                  status := CommandStatus.pending, rawMode := false,
                  sequenceNumber := some (st.wrappedCommandSequenceCounter + 1) })],
            sentKeys := st.sentKeys ++
              [SendEvent.text paneId tclshHelperDefinition,
               SendEvent.text paneId
                 (buildTclshCommand c.2 (st.wrappedCommandSequenceCounter + 1))] })
        hshell (by simp)
      unfold runWrappedCommands at this
      rw [this]
      simp [tclshInvocationEvents]
  refine ⟨hmain, ?_⟩
  rw [hmain, List.drop_left]
  rw [List.count_cons_self]
  rw [List.count_eq_zero.mpr
    (helper_not_in_invocations paneId cmds st.wrappedCommandSequenceCounter)]

/-- Witness for C9: with the default dialect set to tclsh on a fresh
process, two wrapped commands on pane `%0` dispatch the helper definition
exactly once. -/
theorem C9_helper_installed_once_witness :
    ((runWrappedCommands (setShellConfig freshTmuxState "tclsh" none) "%0"
        [("i1", "expr 1+2"), ("i2", "expr 3+4")]).sentKeys.drop
          (setShellConfig freshTmuxState "tclsh" none).sentKeys.length).count
        (SendEvent.text "%0" tclshHelperDefinition) = 1 :=
  (C9_helper_installed_once (setShellConfig freshTmuxState "tclsh" none) "%0"
    [("i1", "expr 1+2"), ("i2", "expr 3+4")]
    (by decide) (by decide) (by decide)).2
